import Mathlib

/-!
Verification of the product-explorer orchestration code: polling loops
(`product_explorer.py`, `course_executor.py`, `live_video_recorder.py`),
session-creation retry logic, password generation and masking, timestamp
formatting, and the ffmpeg overlay filter-graph builder
(`video_composer.py`).

External I/O (HTTP responses, wall-clock time, random choice, LLM and
regex extraction) is modelled by explicit function parameters; machine
floats are modelled by rationals; Python `while` loops are modelled by
fuel-indexed recursion where `none` means the loop is still running after
the given number of iterations.
-/

/-- A task object returned by `GET /tasks/{id}`: we keep the `status`
string and the `steps` list (steps are opaque payloads). -/
structure TaskData where
  status : String
  steps : List String
deriving DecidableEq

/-- The terminal-status test `status in ['finished', 'stopped', 'failed']`
shared by all three task-status polling loops. -/
def is_terminal_status (s : String) : Bool :=
  ["finished", "stopped", "failed"].contains s

/-- `ProductExplorer.wait_for_task_completion` (product_explorer.py:238-276).
`task_id n` is the value of `self.task_id` read at poll iteration `n`
(the attribute is re-read every iteration); `fetch n tid` is the HTTP
response at iteration `n` for task `tid` (`none` models an exception,
after which the loop sleeps and continues).  The Python loop is
`while True:`; fuel counts remaining iterations, `none` = still polling. -/
def wait_for_task_completion_run (task_id : ℕ → String)
    (fetch : ℕ → String → Option TaskData) : ℕ → ℕ → Option TaskData
  | 0, _ => none
  | fuel + 1, n =>
    match fetch n (task_id n) with
    | some task_data =>
      if is_terminal_status task_data.status then
        some task_data
      else
        wait_for_task_completion_run task_id fetch fuel (n + 1)
    | none => wait_for_task_completion_run task_id fetch fuel (n + 1)

/-- `CourseExecutor._wait_for_task` (course_executor.py:147-206).
`fetch n` is the response at poll `n` (`raise_for_status` failures
propagate out of the loop, so `fetch` is total here).  The loop
accumulates timeline events (one per newly seen step) when
`capture_timeline` is set, tracking `last_step_count`; it is
`while True:` with no timeout.  Returns `(task_data, timeline_events)`. -/
def wait_for_task_run (fetch : ℕ → TaskData) (capture_timeline : Bool) :
    ℕ → ℕ → ℕ → List String → Option (TaskData × List String)
  | 0, _, _, _ => none
  | fuel + 1, n, last_step_count, timeline =>
    let task_data := fetch n
    let timeline' :=
      if capture_timeline then timeline ++ task_data.steps.drop last_step_count
      else timeline
    let last' :=
      if capture_timeline then task_data.steps.length else last_step_count
    if is_terminal_status task_data.status then
      some (task_data, timeline')
    else
      wait_for_task_run fetch capture_timeline fuel (n + 1) last' timeline'

/-- Exit report of `LiveVideoRecorder._monitor_task_completion`. -/
inductive MonitorExit where
  | completed (status : String)
  | timedOut
deriving DecidableEq

/-- `LiveVideoRecorder._monitor_task_completion` (live_video_recorder.py:111-148).
`elapsed n` is `time.time() - start_time` at the `n`-th check of the
`while` condition; the loop body sleeps 5 seconds, so
`elapsed (n+1) ≥ elapsed n + 5`.  `fetch n = none` models a non-200
response or an exception (both continue the loop). -/
def monitor_task_completion_run (elapsed : ℕ → ℚ) (max_wait : ℚ)
    (fetch : ℕ → Option TaskData) : ℕ → ℕ → Option MonitorExit
  | 0, _ => none
  | fuel + 1, n =>
    if elapsed n < max_wait then
      match fetch n with
      | some task_data =>
        if is_terminal_status task_data.status then
          some (.completed task_data.status)
        else
          monitor_task_completion_run elapsed max_wait fetch fuel (n + 1)
      | none => monitor_task_completion_run elapsed max_wait fetch fuel (n + 1)
    else
      some .timedOut

/-- A session object returned by `POST /sessions`. -/
structure SessionData where
  id : String
  liveUrl : String
deriving DecidableEq

/-- Outcome of one `requests.post(.../sessions)` attempt inside
`ProductExplorer.create_session`: a successful response, an
`HTTPError` with a status code, or any other exception. -/
inductive SessionAttempt where
  | success (data : SessionData)
  | httpError (code : ℕ)
  | otherError (e : String)
deriving DecidableEq

/-- What `ProductExplorer.create_session` does in the end: return session
data, re-raise an `HTTPError`, re-raise another exception, or raise
`Exception("Failed to create session after all retries")`. -/
inductive CreateSessionResult where
  | created (data : SessionData)
  | raisedHttp (code : ℕ)
  | raisedOther (e : String)
  | raisedAfterRetries (msg : String)
deriving DecidableEq

/-- The `for attempt in range(retries)` loop of
`ProductExplorer.create_session` (product_explorer.py:156-197), recursing
on the number of remaining attempts.  `resp a` is the outcome of the
HTTP call at attempt `a` (0-based).  Returns the result together with
the list of back-off sleeps performed (`(attempt+1)*15` seconds on each
HTTP 429). -/
def create_session_go (resp : ℕ → SessionAttempt) :
    ℕ → ℕ → CreateSessionResult × List ℕ
  | 0, _ => (.raisedAfterRetries "Failed to create session after all retries", [])
  | remaining + 1, attempt =>
    match resp attempt with
    | .success data => (.created data, [])
    | .httpError code =>
      if code = 429 then
        let rest := create_session_go resp remaining (attempt + 1)
        (rest.1, (attempt + 1) * 15 :: rest.2)
      else
        (.raisedHttp code, [])
    | .otherError e => (.raisedOther e, [])

/-- `ProductExplorer.create_session` with its retry loop; `retries`
defaults to 3 in the source. -/
def create_session (resp : ℕ → SessionAttempt) (retries : ℕ) :
    CreateSessionResult × List ℕ :=
  create_session_go resp retries 0

/-- A verification result `{'type': ..., 'value': ...}` returned by
`ProductExplorer.get_verification_data`. -/
structure VerifData where
  type : String
  value : String
deriving DecidableEq

/-- The body of the message-processing branch of
`ProductExplorer.get_verification_data` (product_explorer.py:81-129),
applied to the newest message.  `get_body` models reading
`text`/`html`/`preview` of the message; `llm_extract` models the GPT-4o
call (`none` = the call raised); `find_code` models the
`re.search` over the 6-digit then 4-digit code patterns. -/
def process_email (get_body : String → String)
    (llm_extract : String → Option String)
    (find_code : String → Option String) (msg : String) : VerifData :=
  let email_body := get_body msg
  let link :=
    match llm_extract email_body with
    | some extracted_url =>
      if extracted_url ≠ "" ∧ extracted_url ≠ "NONE" ∧
          extracted_url.startsWith "http" then
        some extracted_url
      else
        none
    | none => none
  match link with
  | some url => ⟨"link", url⟩
  | none =>
    match find_code email_body with
    | some code => ⟨"code", code⟩
    | none => ⟨"text", email_body.take 1000⟩

/-- `ProductExplorer.get_verification_data` (product_explorer.py:61-134):
`while time.time() - start_time < timeout:` poll the inbox; if a message
is present, process it and return; otherwise sleep 3 seconds.  After the
loop, return `None`.  `elapsed n` is the elapsed time at the `n`-th
check of the `while` condition; `messages n` the inbox listing at
iteration `n`.  Outer `none` = fuel ran out with the loop still going;
`some none` = the Python function returned `None`. -/
def get_verification_data_run (timeout : ℚ) (elapsed : ℕ → ℚ)
    (messages : ℕ → List String) (get_body : String → String)
    (llm_extract : String → Option String)
    (find_code : String → Option String) :
    ℕ → ℕ → Option (Option VerifData)
  | 0, _ => none
  | fuel + 1, n =>
    if elapsed n < timeout then
      match messages n with
      | latest :: _ =>
        some (some (process_email get_body llm_extract find_code latest))
      | [] =>
        get_verification_data_run timeout elapsed messages get_body
          llm_extract find_code fuel (n + 1)
    else
      some none

/-- `CourseExecutor._monitor_verification_email` (course_executor.py:51-97):
same polling shape, but it returns the extracted URL only when the LLM
extraction yields a non-empty, non-`'NONE'` string starting with
`'http'`; in every other case (no message, extraction failure, unusable
extraction) it sleeps 3 seconds and polls again, and after the timeout
it returns `None`. -/
def monitor_verification_email_run (timeout : ℚ) (elapsed : ℕ → ℚ)
    (messages : ℕ → List String) (get_body : String → String)
    (llm_extract : String → Option String) :
    ℕ → ℕ → Option (Option String)
  | 0, _ => none
  | fuel + 1, n =>
    if elapsed n < timeout then
      match messages n with
      | latest :: _ =>
        match llm_extract (get_body latest) with
        | some extracted_url =>
          if extracted_url ≠ "" ∧ extracted_url ≠ "NONE" ∧
              extracted_url.startsWith "http" then
            some (some extracted_url)
          else
            monitor_verification_email_run timeout elapsed messages get_body
              llm_extract fuel (n + 1)
        | none =>
          monitor_verification_email_run timeout elapsed messages get_body
            llm_extract fuel (n + 1)
      | [] =>
        monitor_verification_email_run timeout elapsed messages get_body
          llm_extract fuel (n + 1)
    else
      some none

/-- `string.ascii_letters + string.digits + "!@#$%"`, the character pool
of `CourseExecutor._generate_password` (course_executor.py:38-43) and of
the identical `ProductExplorer._generate_password`. -/
def password_chars : List Char :=
  ("abcdefghijklmnopqrstuvwxyzABCDEFGHIJKLMNOPQRSTUVWXYZ".data ++
    "0123456789".data) ++ "!@#$%".data

/-- `_generate_password`: `''.join(random.choice(chars) for _ in range(16))`.
`choice k` models the `k`-th `random.choice(chars)` draw; any function
whose values lie in `password_chars` is a possible run of the generator. -/
def generate_password (choice : ℕ → Char) : String :=
  String.mk ((List.range 16).map choice)

/-- The password-masking rule of `CourseExecutor._generate_enhanced_script`
(course_executor.py:279):
`'***' if len(text) > 12 and any(c in text for c in '!@#$%') else text`. -/
def mask_display_text (text : String) : String :=
  if text.length > 12 ∧ ("!@#$%".data.any fun c => text.data.contains c) then
    "***"
  else
    text

/-- The markdown line written for an `input` action by
`_generate_enhanced_script` (course_executor.py:275-280). -/
def format_input_line (idx : ℕ) (text : String) : String :=
  "- ⌨️  **Type** into element #" ++ toString idx ++ ": `" ++
    mask_display_text text ++ "`\n"

/-- Python `int()` truncation (toward zero) of a rational, as applied to
a float. -/
def py_int (q : ℚ) : ℤ :=
  if 0 ≤ q then ⌊q⌋ else ⌈q⌉

/-- Python float floor division `a // b` (result is a float equal to
`⌊a / b⌋`). -/
def py_floordiv (a b : ℚ) : ℚ :=
  ((⌊a / b⌋ : ℤ) : ℚ)

/-- Python float modulo `a % b` for `b > 0`:
`a - b * (a // b)`. -/
def py_mod (a b : ℚ) : ℚ :=
  a - b * ((⌊a / b⌋ : ℤ) : ℚ)

/-- Decimal digit character, `48 + d` in code-point form. -/
def digit_char (d : ℕ) : Char :=
  Char.ofNat (48 + d)

/-- Decimal rendering of a natural number as a list of characters
(most-significant digit first), as produced by Python's `d` format. -/
def nat_decimal (n : ℕ) : List Char :=
  if _h : n < 10 then [digit_char n]
  else nat_decimal (n / 10) ++ [digit_char (n % 10)]
termination_by n
decreasing_by exact Nat.div_lt_self (by omega) (by omega)

/-- Decimal rendering of an integer (sign included). -/
def int_decimal (i : ℤ) : List Char :=
  if i < 0 then '-' :: nat_decimal i.natAbs else nat_decimal i.toNat

/-- Python's `f"{i:02d}"`: the decimal rendering of `i`, left-padded with
`'0'` to a minimum width of 2. -/
def pad02 (i : ℤ) : List Char :=
  let rendered := int_decimal i
  if rendered.length < 2 then '0' :: rendered else rendered

/-- `CourseExecutor._format_time` (course_executor.py:208-212):
`mins = int(seconds // 60)`, `secs = int(seconds % 60)`, rendered as
`f"{mins:02d}:{secs:02d}"`. -/
def format_time (seconds : ℚ) : String :=
  let mins : ℤ := py_int (py_floordiv seconds 60)
  let secs : ℤ := py_int (py_mod seconds 60)
  String.mk (pad02 mins ++ ':' :: pad02 secs)

/-- Whether a string has the exact shape `MM:SS`: two decimal digits, a
colon, and two decimal digits. -/
def is_mmss_chars : List Char → Bool
  | [a, b, c, d, e] => a.isDigit && b.isDigit && (c == ':') && d.isDigit && e.isDigit
  | _ => false

/-- `is_mmss_chars` on a string's characters. -/
def is_mmss (s : String) : Bool :=
  is_mmss_chars s.data

/-- Outcome of one course workflow inside
`CourseExecutor.execute_all_courses`: either the result dictionary
produced by `execute_course`, or the exception it raised (captured by
`asyncio.gather(..., return_exceptions=True)`). -/
inductive CourseOutcome (ρ : Type) where
  | ok (result : ρ)
  | exn (e : String)
deriving DecidableEq

/-- `asyncio.gather(*tasks, return_exceptions=True)`: runs every task,
captures each task's exception as that task's entry, and returns the
outcomes in the order the tasks were passed. -/
def gather_return_exceptions {ρ : Type} (tasks : List (Unit → CourseOutcome ρ)) :
    List (CourseOutcome ρ) :=
  tasks.map fun t => t ()

/-- `CourseExecutor.execute_all_courses` (course_executor.py:563-648):
one `execute_course` workflow is created per course of `demos`, in
order, and the list returned by the method is exactly the list returned
by `asyncio.gather(*tasks, return_exceptions=True)` (the
successful/failed partition is only printed).  `run_course i c` is the
outcome of course `c` at index `i`. -/
def execute_all_courses {κ ρ : Type} (demos : List κ)
    (run_course : ℕ → κ → CourseOutcome ρ) : List (CourseOutcome ρ) :=
  let tasks := demos.enum.map fun ic => fun _ : Unit => run_course ic.1 ic.2
  gather_return_exceptions tasks

/-- A narration segment dictionary as consumed by
`VideoComposer._build_overlay_filter`: `segment.get('start_time', 0)` and
`segment.get('duration', 5)` (both floats, modelled as rationals; a
missing key is `none`). -/
structure Segment where
  start_time : Option ℚ
  duration : Option ℚ
deriving DecidableEq

/-- Concatenation of the strings produced for each list element, in
order — the shape of a Python `for` loop doing `filters += ...`. -/
def concat_map_str {α : Type} (f : α → String) : List α → String
  | [] => ""
  | x :: xs => f x ++ concat_map_str f xs

/-- The video clause appended for the `i`-th narration segment by
`VideoComposer._build_overlay_filter` (video_composer.py:196):
`f"[{input_idx}:v]scale=320:180,setpts=PTS+{start}/TB[v{i}];"` with
`input_idx = i + 2`.  `fmt` renders a Python float into the f-string
(kept abstract; the structure of the graph does not depend on it). -/
def scale_clause (fmt : ℚ → String) (i : ℕ) (start : ℚ) : String :=
  "[" ++ toString (i + 2) ++ ":v]scale=320:180,setpts=PTS+" ++ fmt start ++
    "/TB[v" ++ toString i ++ "];"

/-- The audio clause appended for the `i`-th narration segment
(video_composer.py:199):
`f"[{input_idx}:a]atrim=duration={duration},asetpts=PTS-STARTPTS,adelay={start_ms}|{start_ms}[a{i}];"`. -/
def adelay_clause (fmt : ℚ → String) (i : ℕ) (duration : ℚ)
    (start_ms : ℤ) : String :=
  "[" ++ toString (i + 2) ++ ":a]atrim=duration=" ++ fmt duration ++
    ",asetpts=PTS-STARTPTS,adelay=" ++ toString start_ms ++ "|" ++
    toString start_ms ++ "[a" ++ toString i ++ "];"

/-- The overlay clause appended for the `i`-th narration segment
(video_composer.py:202-205): the first segment overlays onto `[basev]`,
later ones onto `[tmp{i-1}]`, each enabled on `between(t,start,end)`. -/
def overlay_clause (fmt : ℚ → String) (i : ℕ) (start e : ℚ) : String :=
  (if i = 0 then "[basev]" else "[tmp" ++ toString (i - 1) ++ "]") ++
    "[v" ++ toString i ++ "]overlay=x=W-w-20:y=20:enable='between(t," ++
    fmt start ++ "," ++ fmt e ++ ")':eof_action=pass[tmp" ++ toString i ++ "];"

/-- The three filter clauses appended for the `i`-th narration segment by
the loop of `_build_overlay_filter` (video_composer.py:186-205):
`start = segment.get('start_time', 0) + intro_duration`,
`duration = segment.get('duration', 5)`, `end = start + duration`,
`start_ms = int(start * 1000)`. -/
def segment_filters (fmt : ℚ → String) (intro_duration : ℚ) (i : ℕ)
    (segment : Segment) : String :=
  scale_clause fmt i (segment.start_time.getD 0 + intro_duration) ++
  adelay_clause fmt i (segment.duration.getD 5)
    (py_int ((segment.start_time.getD 0 + intro_duration) * 1000)) ++
  overlay_clause fmt i (segment.start_time.getD 0 + intro_duration)
    ((segment.start_time.getD 0 + intro_duration) + segment.duration.getD 5)

/-- The base concat filters of `_build_overlay_filter`
(video_composer.py:177-183). -/
def base_filters (browser_has_audio : Bool) : String :=
  "[0:v][1:v]concat=n=2:v=1[basev];" ++
    (if browser_has_audio then "[0:a][1:a]concat=n=2:v=0:a=1[basea];"
     else "[0:a]acopy[basea];")

/-- The `"".join(f"[a{i}]" for i in range(num_narrations))` input-label
string of the final `amix` stage (video_composer.py:213). -/
def narration_audio_inputs (num_narrations : ℕ) : String :=
  concat_map_str (fun i => "[a" ++ toString i ++ "]")
    (List.range num_narrations)

/-- `VideoComposer._build_overlay_filter` (video_composer.py:173-216):
base concat filters, one block of clauses per narration segment, the
final `format` stage reading `[tmp{len-1}]` (`len - 1` computed as a
Python `int`, so `-1` for the empty list), and the `amix` stage mixing
the base audio with every delayed narration track. -/
def build_overlay_filter (fmt : ℚ → String) (narration_segments : List Segment)
    (intro_duration : ℚ) (browser_has_audio : Bool) : String :=
  base_filters browser_has_audio ++
    concat_map_str
      (fun p => segment_filters fmt intro_duration p.1 p.2)
      narration_segments.enum ++
    "[tmp" ++ toString ((narration_segments.length : ℤ) - 1) ++
    "]format=yuv420p[outv];" ++
    "[basea]" ++ narration_audio_inputs narration_segments.length ++
    "amix=inputs=" ++ toString (1 + narration_segments.length) ++
    ":duration=longest[outa]"

/-- How `VideoComposer._compose_with_ffmpeg` composes the video. -/
inductive ComposePlan where
  | simpleConcat
  | overlayCompose (filter_complex : String)
deriving DecidableEq

/-- The branch of `VideoComposer._compose_with_ffmpeg`
(video_composer.py:86-90 and 111, 126): with no narration segments it
falls back to `_simple_concatenate` and never builds the overlay filter;
otherwise it builds the filter graph with the hard-coded
`intro_duration = 12.0`. -/
def compose_with_ffmpeg_plan (fmt : ℚ → String)
    (narration_segments : List Segment) (browser_has_audio : Bool) :
    ComposePlan :=
  if narration_segments.isEmpty then
    .simpleConcat
  else
    .overlayCompose (build_overlay_filter fmt narration_segments 12 browser_has_audio)

/-- `sub` occurs somewhere inside `s` (contiguously). -/
def str_contains (s sub : String) : Prop :=
  sub.data <:+: s.data

instance (s sub : String) : Decidable (str_contains s sub) :=
  List.decidableInfix sub.data s.data

/-- Number of (possibly overlapping) occurrences of `sub` inside `l`,
counted by starting position. -/
def count_sub (sub : List Char) : List Char → ℕ
  | [] => if sub = [] then 1 else 0
  | c :: rest => (if sub <+: c :: rest then 1 else 0) + count_sub sub rest

lemma is_terminal_status_iff (s : String) :
    is_terminal_status s = true ↔
      s = "finished" ∨ s = "stopped" ∨ s = "failed" := by
  simp [is_terminal_status, List.contains]

lemma wait_for_task_completion_run_eq_some {task_id : ℕ → String}
    {fetch : ℕ → String → Option TaskData} :
    ∀ {fuel n : ℕ} {d : TaskData},
      wait_for_task_completion_run task_id fetch fuel n = some d →
      ∃ j, n ≤ j ∧ fetch j (task_id j) = some d ∧
        is_terminal_status d.status = true := by
  intro fuel
  induction fuel with
  | zero => intro n d h; simp [wait_for_task_completion_run] at h
  | succ fuel ih =>
    intro n d h
    rw [wait_for_task_completion_run] at h
    split at h
    · rename_i task_data heq
      split at h
      · rename_i ht
        obtain rfl : task_data = d := by injection h
        exact ⟨n, le_refl n, heq, ht⟩
      · obtain ⟨j, hj, hjf, hjt⟩ := ih h
        exact ⟨j, by omega, hjf, hjt⟩
    · obtain ⟨j, hj, hjf, hjt⟩ := ih h
      exact ⟨j, by omega, hjf, hjt⟩

/-- C2: `ProductExplorer.wait_for_task_completion` re-reads `self.task_id`
on every poll iteration (the model fetches task `task_id n` at iteration
`n`), so when `_monitor_verification_email` replaces the session and
assigns the new verification task's id to `self.task_id` from iteration
`m` on, and no poll of the original task was terminal before the switch,
the dictionary the loop returns is the terminal state of the new task:
it is the response of a poll of `new_id` at some iteration `n ≥ m`, with
a terminal status. -/
theorem wait_for_task_completion_follows_task_id_switch
    (task_id : ℕ → String) (fetch : ℕ → String → Option TaskData)
    (fuel m : ℕ) (new_id : String) (d : TaskData)
    (h_switch : ∀ k, m ≤ k → task_id k = new_id)
    (h_before : ∀ k, k < m → ∀ e, fetch k (task_id k) = some e →
      is_terminal_status e.status = false)
    (h_run : wait_for_task_completion_run task_id fetch fuel 0 = some d) :
    ∃ n, m ≤ n ∧ fetch n new_id = some d ∧
      is_terminal_status d.status = true := by
  obtain ⟨j, -, hjf, hjt⟩ := wait_for_task_completion_run_eq_some h_run
  by_cases hjm : j < m
  · have := h_before j hjm d hjf
    rw [this] at hjt
    exact absurd hjt (by simp)
  · have hj : m ≤ j := by omega
    exact ⟨j, hj, by rwa [h_switch j hj] at hjf, hjt⟩

/-- Witness for C2: the task id switches from `"old"` to `"new"` at
iteration 2; the old task never reports a terminal status, the new task
finishes at iteration 4, and the loop returns the new task's terminal
state. -/
theorem wait_for_task_completion_follows_task_id_switch_witness :
    ∃ n, 2 ≤ n ∧
      (fun (k : ℕ) (_ : String) => if k < 4 then some (⟨"running", []⟩ : TaskData)
        else some ⟨"finished", []⟩) n "new" = some (⟨"finished", []⟩ : TaskData) ∧
      is_terminal_status (TaskData.mk "finished" []).status = true :=
  wait_for_task_completion_follows_task_id_switch
    (fun k => if k < 2 then "old" else "new")
    (fun k _ => if k < 4 then some ⟨"running", []⟩ else some ⟨"finished", []⟩)
    10 2 "new" ⟨"finished", []⟩
    (by intro k hk; simp [Nat.not_lt.mpr hk])
    (by
      intro k hk e he
      have : (if k < 4 then some (⟨"running", []⟩ : TaskData)
          else some ⟨"finished", []⟩) = some e := he
      rw [if_pos (by omega)] at this
      obtain rfl : (⟨"running", []⟩ : TaskData) = e := by injection this
      decide)
    (by decide)

/-- C3: every task-status polling loop (`wait_for_task_completion`,
`_wait_for_task`, `_monitor_task_completion`) stops polling and reports
completion at a poll iteration exactly when the polled task's `status`
equals one of `'finished'`, `'stopped'`, `'failed'`; on every other
status value it keeps polling (the next iteration of the same loop
runs). -/
theorem polling_loops_exit_exactly_on_terminal_status :
    (∀ (task_id : ℕ → String) (fetch : ℕ → String → Option TaskData)
        (fuel n : ℕ) (d : TaskData), fetch n (task_id n) = some d →
      ((d.status = "finished" ∨ d.status = "stopped" ∨ d.status = "failed") →
        wait_for_task_completion_run task_id fetch (fuel + 1) n = some d) ∧
      (¬(d.status = "finished" ∨ d.status = "stopped" ∨ d.status = "failed") →
        wait_for_task_completion_run task_id fetch (fuel + 1) n =
          wait_for_task_completion_run task_id fetch fuel (n + 1))) ∧
    (∀ (fetch : ℕ → TaskData) (capture_timeline : Bool)
        (fuel n last_step_count : ℕ) (timeline : List String),
      (((fetch n).status = "finished" ∨ (fetch n).status = "stopped" ∨
          (fetch n).status = "failed") →
        wait_for_task_run fetch capture_timeline (fuel + 1) n
            last_step_count timeline =
          some (fetch n,
            if capture_timeline then
              timeline ++ (fetch n).steps.drop last_step_count
            else timeline)) ∧
      (¬((fetch n).status = "finished" ∨ (fetch n).status = "stopped" ∨
          (fetch n).status = "failed") →
        wait_for_task_run fetch capture_timeline (fuel + 1) n
            last_step_count timeline =
          wait_for_task_run fetch capture_timeline fuel (n + 1)
            (if capture_timeline then (fetch n).steps.length
             else last_step_count)
            (if capture_timeline then
              timeline ++ (fetch n).steps.drop last_step_count
             else timeline))) ∧
    (∀ (elapsed : ℕ → ℚ) (max_wait : ℚ) (fetch : ℕ → Option TaskData)
        (fuel n : ℕ) (d : TaskData),
      elapsed n < max_wait → fetch n = some d →
      ((d.status = "finished" ∨ d.status = "stopped" ∨ d.status = "failed") →
        monitor_task_completion_run elapsed max_wait fetch (fuel + 1) n =
          some (.completed d.status)) ∧
      (¬(d.status = "finished" ∨ d.status = "stopped" ∨ d.status = "failed") →
        monitor_task_completion_run elapsed max_wait fetch (fuel + 1) n =
          monitor_task_completion_run elapsed max_wait fetch fuel (n + 1))) := by
  refine ⟨?_, ?_, ?_⟩
  · intro task_id fetch fuel n d hf
    constructor
    · intro hterm
      rw [wait_for_task_completion_run, hf]
      simp [(is_terminal_status_iff d.status).mpr hterm]
    · intro hterm
      rw [wait_for_task_completion_run, hf]
      have : is_terminal_status d.status = false := by
        rcases h : is_terminal_status d.status with _ | _
        · rfl
        · exact absurd ((is_terminal_status_iff d.status).mp h) hterm
      simp [this]
  · intro fetch capture_timeline fuel n last_step_count timeline
    constructor
    · intro hterm
      rw [wait_for_task_run]
      simp [(is_terminal_status_iff (fetch n).status).mpr hterm]
    · intro hterm
      rw [wait_for_task_run]
      have : is_terminal_status (fetch n).status = false := by
        rcases h : is_terminal_status (fetch n).status with _ | _
        · rfl
        · exact absurd ((is_terminal_status_iff _).mp h) hterm
      simp [this]
  · intro elapsed max_wait fetch fuel n d hlt hf
    constructor
    · intro hterm
      rw [monitor_task_completion_run, if_pos hlt, hf]
      simp [(is_terminal_status_iff d.status).mpr hterm]
    · intro hterm
      rw [monitor_task_completion_run, if_pos hlt, hf]
      have : is_terminal_status d.status = false := by
        rcases h : is_terminal_status d.status with _ | _
        · rfl
        · exact absurd ((is_terminal_status_iff d.status).mp h) hterm
      simp [this]

/-- Witness for C3: a `'stopped'` status exits the first loop with the
task data; a `'running'` status makes it keep polling; a `'finished'`
status exits the course-executor loop with the captured timeline; a
`'failed'` status exits the recorder loop reporting completion. -/
theorem polling_loops_exit_exactly_on_terminal_status_witness :
    wait_for_task_completion_run (fun _ => "t") (fun _ _ => some ⟨"stopped", []⟩) 1 0 =
      some ⟨"stopped", []⟩ ∧
    wait_for_task_completion_run (fun _ => "t") (fun _ _ => some ⟨"running", []⟩) 3 0 =
      wait_for_task_completion_run (fun _ => "t") (fun _ _ => some ⟨"running", []⟩) 2 1 ∧
    wait_for_task_run (fun _ => ⟨"finished", ["step1"]⟩) true 1 0 0 [] =
      some (⟨"finished", ["step1"]⟩,
        if true then ([] : List String) ++
          (TaskData.mk "finished" ["step1"]).steps.drop 0 else []) ∧
    monitor_task_completion_run (fun _ => 0) 300 (fun _ => some ⟨"failed", []⟩) 1 0 =
      some (.completed "failed") := by
  refine ⟨?_, ?_, ?_, ?_⟩
  · exact (polling_loops_exit_exactly_on_terminal_status.1
      (fun _ => "t") (fun _ _ => some ⟨"stopped", []⟩) 0 0 ⟨"stopped", []⟩ rfl).1
      (Or.inr (Or.inl rfl))
  · exact (polling_loops_exit_exactly_on_terminal_status.1
      (fun _ => "t") (fun _ _ => some ⟨"running", []⟩) 2 0 ⟨"running", []⟩ rfl).2
      (by decide)
  · exact (polling_loops_exit_exactly_on_terminal_status.2.1
      (fun _ => ⟨"finished", ["step1"]⟩) true 0 0 0 []).1 (Or.inl rfl)
  · exact (polling_loops_exit_exactly_on_terminal_status.2.2
      (fun _ => 0) 300 (fun _ => some ⟨"failed", []⟩) 0 0 ⟨"failed", []⟩
      (by norm_num) rfl).1 (Or.inr (Or.inr rfl))

/-- C4 (amended): the three poll loops guarded by
`while elapsed < timeout` — inbox polling in
`ProductExplorer.get_verification_data` and
`CourseExecutor._monitor_verification_email` (3-second sleeps) and
`LiveVideoRecorder._monitor_task_completion` (5-second sleeps) — always
terminate once the elapsed time passes the timeout: whenever the fuel
covers the timeout (`timeout ≤ elapsed n + step * fuel`), the run
returns a result instead of still polling. -/
theorem bounded_poll_loops_terminate_after_timeout :
    (∀ (timeout : ℚ) (elapsed : ℕ → ℚ) (messages : ℕ → List String)
        (get_body : String → String) (llm_extract : String → Option String)
        (find_code : String → Option String) (fuel n : ℕ),
      (∀ k, elapsed k + 3 ≤ elapsed (k + 1)) →
      timeout ≤ elapsed n + 3 * fuel →
      ∃ r, get_verification_data_run timeout elapsed messages get_body
        llm_extract find_code (fuel + 1) n = some r) ∧
    (∀ (timeout : ℚ) (elapsed : ℕ → ℚ) (messages : ℕ → List String)
        (get_body : String → String) (llm_extract : String → Option String)
        (fuel n : ℕ),
      (∀ k, elapsed k + 3 ≤ elapsed (k + 1)) →
      timeout ≤ elapsed n + 3 * fuel →
      ∃ r, monitor_verification_email_run timeout elapsed messages get_body
        llm_extract (fuel + 1) n = some r) ∧
    (∀ (max_wait : ℚ) (elapsed : ℕ → ℚ) (fetch : ℕ → Option TaskData)
        (fuel n : ℕ),
      (∀ k, elapsed k + 5 ≤ elapsed (k + 1)) →
      max_wait ≤ elapsed n + 5 * fuel →
      ∃ r, monitor_task_completion_run elapsed max_wait fetch (fuel + 1) n =
        some r) := by
  refine ⟨?_, ?_, ?_⟩
  · intro timeout elapsed messages get_body llm_extract find_code fuel
    induction fuel with
    | zero =>
      intro n _ hcov
      rw [get_verification_data_run]
      have : ¬elapsed n < timeout := by push_cast at hcov; linarith
      rw [if_neg this]
      exact ⟨none, rfl⟩
    | succ fuel ih =>
      intro n hgrow hcov
      rw [get_verification_data_run]
      by_cases hlt : elapsed n < timeout
      · rw [if_pos hlt]
        cases hm : messages n with
        | nil =>
          refine ih (n + 1) hgrow ?_
          have := hgrow n
          push_cast at hcov ⊢
          linarith
        | cons latest rest => exact ⟨some _, rfl⟩
      · rw [if_neg hlt]
        exact ⟨none, rfl⟩
  · intro timeout elapsed messages get_body llm_extract fuel
    induction fuel with
    | zero =>
      intro n _ hcov
      rw [monitor_verification_email_run]
      have : ¬elapsed n < timeout := by push_cast at hcov; linarith
      rw [if_neg this]
      exact ⟨none, rfl⟩
    | succ fuel ih =>
      intro n hgrow hcov
      rw [monitor_verification_email_run]
      by_cases hlt : elapsed n < timeout
      · rw [if_pos hlt]
        have hnext : timeout ≤ elapsed (n + 1) + 3 * fuel := by
          have := hgrow n
          push_cast at hcov ⊢
          linarith
        cases hm : messages n with
        | nil => exact ih (n + 1) hgrow hnext
        | cons latest rest =>
          cases hx : llm_extract (get_body latest) with
          | none =>
            simp only [hx]
            exact ih (n + 1) hgrow hnext
          | some extracted_url =>
            simp only [hx]
            split
            · exact ⟨some extracted_url, rfl⟩
            · exact ih (n + 1) hgrow hnext
      · rw [if_neg hlt]
        exact ⟨none, rfl⟩
  · intro max_wait elapsed fetch fuel
    induction fuel with
    | zero =>
      intro n _ hcov
      rw [monitor_task_completion_run]
      have : ¬elapsed n < max_wait := by push_cast at hcov; linarith
      rw [if_neg this]
      exact ⟨.timedOut, rfl⟩
    | succ fuel ih =>
      intro n hgrow hcov
      rw [monitor_task_completion_run]
      by_cases hlt : elapsed n < max_wait
      · rw [if_pos hlt]
        have hnext : max_wait ≤ elapsed (n + 1) + 5 * fuel := by
          have := hgrow n
          push_cast at hcov ⊢
          linarith
        cases hfe : fetch n with
        | none => exact ih (n + 1) hgrow hnext
        | some task_data =>
          simp only []
          split
          · exact ⟨.completed task_data.status, rfl⟩
          · exact ih (n + 1) hgrow hnext
      · rw [if_neg hlt]
        exact ⟨.timedOut, rfl⟩

/-- Witness for C4 (amended): with clocks advancing 3 (resp. 5) seconds
per iteration and nothing ever arriving, the two inbox loops exit within
31 iterations of their 90-second timeout and the recorder loop exits
within 37 iterations of its 180-second budget. -/
theorem bounded_poll_loops_terminate_after_timeout_witness :
    (∃ r, get_verification_data_run 90 (fun n => 3 * n) (fun _ => [])
      id (fun _ => none) (fun _ => none) 31 0 = some r) ∧
    (∃ r, monitor_verification_email_run 90 (fun n => 3 * n) (fun _ => [])
      id (fun _ => none) 31 0 = some r) ∧
    (∃ r, monitor_task_completion_run (fun n => 5 * n) 180
      (fun _ => some ⟨"running", []⟩) 37 0 = some r) := by
  refine ⟨?_, ?_, ?_⟩
  · exact bounded_poll_loops_terminate_after_timeout.1 90 (fun n => 3 * n)
      (fun _ => []) id (fun _ => none) (fun _ => none) 30 0
      (by intro k; push_cast; linarith) (by norm_num)
  · exact bounded_poll_loops_terminate_after_timeout.2.1 90 (fun n => 3 * n)
      (fun _ => []) id (fun _ => none) 30 0
      (by intro k; push_cast; linarith) (by norm_num)
  · exact bounded_poll_loops_terminate_after_timeout.2.2 180 (fun n => 5 * n)
      (fun _ => some ⟨"running", []⟩) 36 0
      (by intro k; push_cast; linarith) (by norm_num)

/-- Counterexample for C4 as stated: the task-status poll loops of
`ProductExplorer.wait_for_task_completion` and
`CourseExecutor._wait_for_task` are `while True:` loops with no
`elapsed < timeout` guard.  When every poll reports status
`'running'`, they are still polling after 500 iterations, and indeed
after any number of iterations — they poll forever instead of
terminating after a timeout. -/
theorem while_true_poll_loops_never_time_out :
    wait_for_task_completion_run (fun _ => "task-1")
      (fun _ _ => some ⟨"running", []⟩) 500 0 = none ∧
    wait_for_task_run (fun _ => ⟨"running", []⟩) true 500 0 0 [] = none ∧
    (∀ fuel n, wait_for_task_completion_run (fun _ => "task-1")
      (fun _ _ => some ⟨"running", []⟩) fuel n = none) ∧
    (∀ fuel n last_step_count timeline,
      wait_for_task_run (fun _ => ⟨"running", []⟩) true fuel n
        last_step_count timeline = none) := by
  have hterm : is_terminal_status "running" = false := by rfl
  have h1 : ∀ fuel n, wait_for_task_completion_run (fun _ => "task-1")
      (fun _ _ => some ⟨"running", []⟩) fuel n = none := by
    intro fuel
    induction fuel with
    | zero => intro n; rfl
    | succ fuel ih =>
      intro n
      rw [wait_for_task_completion_run]
      simpa [hterm] using ih (n + 1)
  have h2 : ∀ fuel n last_step_count timeline,
      wait_for_task_run (fun _ => ⟨"running", []⟩) true fuel n
        last_step_count timeline = none := by
    intro fuel
    induction fuel with
    | zero => intro n last_step_count timeline; rfl
    | succ fuel ih =>
      intro n last_step_count timeline
      rw [wait_for_task_run]
      simpa [hterm] using ih (n + 1) _ _
  exact ⟨h1 500 0, h2 500 0 0 [], h1, h2⟩

lemma get_verification_data_run_all_empty (timeout : ℚ) (elapsed : ℕ → ℚ)
    (messages : ℕ → List String) (get_body : String → String)
    (llm_extract : String → Option String) (find_code : String → Option String)
    (hgrow : ∀ k, elapsed k + 3 ≤ elapsed (k + 1))
    (hempty : ∀ n, messages n = []) :
    ∀ (fuel n : ℕ), timeout ≤ elapsed n + 3 * (fuel : ℚ) →
      get_verification_data_run timeout elapsed messages get_body llm_extract
        find_code (fuel + 1) n = some none := by
  intro fuel
  induction fuel with
  | zero =>
    intro n hcov
    rw [get_verification_data_run]
    have : ¬elapsed n < timeout := by push_cast at hcov; linarith
    rw [if_neg this]
  | succ fuel ih =>
    intro n hcov
    rw [get_verification_data_run]
    by_cases hlt : elapsed n < timeout
    · rw [if_pos hlt, hempty n]
      refine ih (n + 1) ?_
      have := hgrow n
      push_cast at hcov ⊢
      linarith
    · rw [if_neg hlt]

lemma monitor_verification_email_run_all_empty (timeout : ℚ) (elapsed : ℕ → ℚ)
    (messages : ℕ → List String) (get_body : String → String)
    (llm_extract : String → Option String)
    (hgrow : ∀ k, elapsed k + 3 ≤ elapsed (k + 1))
    (hempty : ∀ n, messages n = []) :
    ∀ (fuel n : ℕ), timeout ≤ elapsed n + 3 * (fuel : ℚ) →
      monitor_verification_email_run timeout elapsed messages get_body
        llm_extract (fuel + 1) n = some none := by
  intro fuel
  induction fuel with
  | zero =>
    intro n hcov
    rw [monitor_verification_email_run]
    have : ¬elapsed n < timeout := by push_cast at hcov; linarith
    rw [if_neg this]
  | succ fuel ih =>
    intro n hcov
    rw [monitor_verification_email_run]
    by_cases hlt : elapsed n < timeout
    · rw [if_pos hlt, hempty n]
      refine ih (n + 1) ?_
      have := hgrow n
      push_cast at hcov ⊢
      linarith
    · rw [if_neg hlt]

/-- C6: when the verification-email wait reaches its timeout (default 90
seconds, polling the inbox every 3 seconds — hence at most 30 sleeping
iterations) without any message arriving,
`ProductExplorer.get_verification_data` and
`CourseExecutor._monitor_verification_email` both return `None` (rather
than raising: the model's `some none` is the Python `return None`). -/
theorem verification_email_timeout_returns_none
    (elapsed : ℕ → ℚ) (messages : ℕ → List String)
    (get_body : String → String) (llm_extract : String → Option String)
    (find_code : String → Option String)
    (hgrow : ∀ k, elapsed k + 3 ≤ elapsed (k + 1))
    (hstart : 0 ≤ elapsed 0)
    (hempty : ∀ n, messages n = []) :
    get_verification_data_run 90 elapsed messages get_body llm_extract
      find_code 31 0 = some none ∧
    monitor_verification_email_run 90 elapsed messages get_body llm_extract
      31 0 = some none := by
  have hcov : (90 : ℚ) ≤ elapsed 0 + 3 * (30 : ℕ) := by push_cast; linarith
  exact ⟨get_verification_data_run_all_empty 90 elapsed messages get_body
      llm_extract find_code hgrow hempty 30 0 hcov,
    monitor_verification_email_run_all_empty 90 elapsed messages get_body
      llm_extract hgrow hempty 30 0 hcov⟩

/-- Witness for C6: a clock that advances exactly 3 seconds per poll and
an inbox that never receives a message. -/
theorem verification_email_timeout_returns_none_witness :
    get_verification_data_run 90 (fun n => 3 * n) (fun _ => []) id
      (fun _ => none) (fun _ => none) 31 0 = some none ∧
    monitor_verification_email_run 90 (fun n => 3 * n) (fun _ => []) id
      (fun _ => none) 31 0 = some none :=
  verification_email_timeout_returns_none (fun n => 3 * n) (fun _ => [])
    id (fun _ => none) (fun _ => none)
    (by intro k; push_cast; linarith) (by norm_num) (fun _ => rfl)

lemma range_map_backoff (a n : ℕ) :
    (List.range (n + 1)).map (fun k => (a + k + 1) * 15) =
      (a + 1) * 15 :: (List.range n).map (fun k => (a + 1 + k + 1) * 15) := by
  rw [List.range_succ_eq_map, List.map_cons, List.map_map]
  refine List.cons_eq_cons.mpr ⟨by norm_num, ?_⟩
  refine List.map_congr_left fun k _ => ?_
  simp only [Function.comp_apply]
  omega

lemma create_session_go_all_429 (resp : ℕ → SessionAttempt) :
    ∀ (remaining a : ℕ),
      (∀ k, k < remaining → resp (a + k) = .httpError 429) →
      create_session_go resp remaining a =
        (.raisedAfterRetries "Failed to create session after all retries",
         (List.range remaining).map fun k => (a + k + 1) * 15) := by
  intro remaining
  induction remaining with
  | zero => intro a _; rfl
  | succ remaining ih =>
    intro a h429
    have h0 : resp a = .httpError 429 := by simpa using h429 0 (by omega)
    have step : create_session_go resp (remaining + 1) a =
        ((create_session_go resp remaining (a + 1)).1,
         (a + 1) * 15 :: (create_session_go resp remaining (a + 1)).2) := by
      rw [create_session_go, h0]
      rfl
    rw [step, ih (a + 1) (fun k hk => by
      rw [show a + 1 + k = a + (k + 1) from by omega]
      exact h429 (k + 1) (by omega))]
    rw [range_map_backoff]

lemma create_session_go_stops_at_error (resp : ℕ → SessionAttempt) :
    ∀ (j remaining a : ℕ), j < remaining →
      (∀ k, k < j → resp (a + k) = .httpError 429) →
      (∀ c, c ≠ 429 → resp (a + j) = .httpError c →
        create_session_go resp remaining a =
          (.raisedHttp c, (List.range j).map fun k => (a + k + 1) * 15)) ∧
      (∀ e, resp (a + j) = .otherError e →
        create_session_go resp remaining a =
          (.raisedOther e, (List.range j).map fun k => (a + k + 1) * 15)) := by
  intro j
  induction j with
  | zero =>
    intro remaining a hj _
    obtain ⟨r, rfl⟩ : ∃ r, remaining = r + 1 :=
      ⟨remaining - 1, by omega⟩
    constructor
    · intro c hc hr
      rw [Nat.add_zero] at hr
      rw [create_session_go, hr]
      simp only [if_neg hc]
      rfl
    · intro e hr
      rw [Nat.add_zero] at hr
      rw [create_session_go, hr]
      rfl
  | succ j ih =>
    intro remaining a hj h429
    obtain ⟨r, rfl⟩ : ∃ r, remaining = r + 1 :=
      ⟨remaining - 1, by omega⟩
    have h0 : resp a = .httpError 429 := by simpa using h429 0 (by omega)
    have step : create_session_go resp (r + 1) a =
        ((create_session_go resp r (a + 1)).1,
         (a + 1) * 15 :: (create_session_go resp r (a + 1)).2) := by
      rw [create_session_go, h0]
      rfl
    have h429' : ∀ k, k < j → resp (a + 1 + k) = .httpError 429 := fun k hk => by
      rw [show a + 1 + k = a + (k + 1) from by omega]
      exact h429 (k + 1) (by omega)
    have ihj := ih r (a + 1) (by omega) h429'
    constructor
    · intro c hc hr
      have hr' : resp (a + 1 + j) = .httpError c := by
        rw [show a + 1 + j = a + (j + 1) from by omega]; exact hr
      rw [step, ihj.1 c hc hr', range_map_backoff]
    · intro e hr
      have hr' : resp (a + 1 + j) = .otherError e := by
        rw [show a + 1 + j = a + (j + 1) from by omega]; exact hr
      rw [step, ihj.2 e hr', range_map_backoff]

/-- C5: `ProductExplorer.create_session` sleeps `(attempt+1)*15` seconds
on each HTTP 429 (15s, 30s, 45s for the default `retries = 3`) and
retries for at most `retries` attempts, raising
`'Failed to create session after all retries'` when every attempt is
rate-limited; an HTTP error other than 429 and any non-HTTP exception
are re-raised immediately, with no further attempts or sleeps. -/
theorem create_session_retry_policy (resp : ℕ → SessionAttempt) (retries : ℕ) :
    ((∀ a, a < retries → resp a = .httpError 429) →
      create_session resp retries =
        (.raisedAfterRetries "Failed to create session after all retries",
         (List.range retries).map fun a => (a + 1) * 15)) ∧
    (∀ j c, j < retries → c ≠ 429 →
      (∀ k, k < j → resp k = .httpError 429) → resp j = .httpError c →
      create_session resp retries =
        (.raisedHttp c, (List.range j).map fun k => (k + 1) * 15)) ∧
    (∀ j e, j < retries →
      (∀ k, k < j → resp k = .httpError 429) → resp j = .otherError e →
      create_session resp retries =
        (.raisedOther e, (List.range j).map fun k => (k + 1) * 15)) := by
  refine ⟨?_, ?_, ?_⟩
  · intro h429
    have := create_session_go_all_429 resp retries 0 (fun k hk => by
      simpa using h429 k hk)
    simpa [create_session] using this
  · intro j c hj hc h429 hr
    have := (create_session_go_stops_at_error resp j retries 0 hj
      (fun k hk => by simpa using h429 k hk)).1 c hc (by simpa using hr)
    simpa [create_session] using this
  · intro j e hj h429 hr
    have := (create_session_go_stops_at_error resp j retries 0 hj
      (fun k hk => by simpa using h429 k hk)).2 e (by simpa using hr)
    simpa [create_session] using this

/-- Witness for C5: with the default 3 retries, three straight 429s give
sleeps of 15, 30, 45 seconds and the final `'Failed to create session
after all retries'`; a 429 followed by a 500 re-raises after the single
15-second sleep; an immediate non-HTTP exception re-raises with no
sleeps at all. -/
theorem create_session_retry_policy_witness :
    create_session (fun _ => .httpError 429) 3 =
      (.raisedAfterRetries "Failed to create session after all retries",
        [15, 30, 45]) ∧
    create_session (fun a => if a = 0 then .httpError 429 else .httpError 500) 3 =
      (.raisedHttp 500, [15]) ∧
    create_session (fun _ => .otherError "connection reset") 3 =
      (.raisedOther "connection reset", []) := by
  refine ⟨?_, ?_, ?_⟩
  · have h := (create_session_retry_policy (fun _ => .httpError 429) 3).1
      (fun a _ => rfl)
    simpa using h
  · have h := (create_session_retry_policy
        (fun a => if a = 0 then .httpError 429 else .httpError 500) 3).2.1
      1 500 (by omega) (by omega) (fun k hk => by interval_cases k; rfl) rfl
    simpa using h
  · have h := (create_session_retry_policy
        (fun _ => .otherError "connection reset") 3).2.2
      0 "connection reset" (by omega) (fun k hk => absurd hk (by omega)) rfl
    simpa using h

/-- C7: `CourseExecutor.execute_all_courses` launches one workflow per
course in `demos` and collects them all: the returned list has exactly
one entry per course, in course order (`i`-th entry is the outcome of
course `i`), and a workflow that raises contributes its captured
exception as its own entry instead of propagating and disturbing the
other entries. -/
theorem execute_all_courses_collects_one_entry_per_course {κ ρ : Type}
    (demos : List κ) (run_course : ℕ → κ → CourseOutcome ρ) :
    (execute_all_courses demos run_course).length = demos.length ∧
    (∀ i (h : i < demos.length),
      (execute_all_courses demos run_course)[i]? =
        some (run_course i demos[i])) ∧
    (∀ i (h : i < demos.length) (e : String),
      run_course i demos[i] = .exn e →
      (execute_all_courses demos run_course)[i]? = some (.exn e)) := by
  have hlen : (execute_all_courses demos run_course).length = demos.length := by
    simp [execute_all_courses, gather_return_exceptions]
  have hget : ∀ i (h : i < demos.length),
      (execute_all_courses demos run_course)[i]? =
        some (run_course i demos[i]) := by
    intro i h
    simp [execute_all_courses, gather_return_exceptions,
      List.getElem?_map, List.getElem?_enum, List.getElem?_eq_getElem h]
  exact ⟨hlen, hget, fun i h e he => by rw [hget i h, he]⟩

/-- Witness for C7: two courses, the second of which raises; the result
list still has one entry per course and the exception is the second
entry. -/
theorem execute_all_courses_collects_one_entry_per_course_witness :
    (execute_all_courses ["course-a", "course-b"]
        (fun i (_ : String) => if i = 0 then CourseOutcome.ok "done"
          else CourseOutcome.exn "boom")).length = 2 ∧
    (execute_all_courses ["course-a", "course-b"]
        (fun i (_ : String) => if i = 0 then CourseOutcome.ok "done"
          else CourseOutcome.exn "boom"))[1]? =
      some (CourseOutcome.exn "boom") := by
  have h := execute_all_courses_collects_one_entry_per_course
    ["course-a", "course-b"]
    (fun i (_ : String) => if i = 0 then CourseOutcome.ok "done"
      else CourseOutcome.exn "boom")
  exact ⟨h.1, h.2.2 1 (by simp) "boom" rfl⟩

/-- C9: `_generate_password` always returns a string of exactly 16
characters drawn from ASCII letters, digits and `'!@#$%'`; yet the
all-`'a'` draw is such a password containing none of `'!@#$%'`, and
since `_generate_enhanced_script` masks typed text as `'***'` only when
it is longer than 12 characters and contains a character of `'!@#$%'`,
that password is written verbatim (unmasked) into the enhanced-script
markdown line. -/
theorem generated_password_can_evade_masking :
    (∀ choice : ℕ → Char, (∀ n, n < 16 → choice n ∈ password_chars) →
      (generate_password choice).length = 16 ∧
      ∀ c ∈ (generate_password choice).data, c ∈ password_chars) ∧
    (∀ n, n < 16 → (fun _ : ℕ => 'a') n ∈ password_chars) ∧
    (∀ c ∈ "!@#$%".data, c ∉ (generate_password fun _ => 'a').data) ∧
    mask_display_text (generate_password fun _ => 'a') =
      generate_password (fun _ => 'a') ∧
    generate_password (fun _ => 'a') ≠ "***" ∧
    str_contains (format_input_line 3 (generate_password fun _ => 'a'))
      (generate_password fun _ => 'a') := by
  refine ⟨?_, by decide, by decide, by decide, by decide, by decide⟩
  intro choice hchoice
  constructor
  · simp [generate_password, String.length]
  · intro c hc
    simp only [generate_password, String.data] at hc
    obtain ⟨n, hn, rfl⟩ := List.mem_map.mp hc
    exact hchoice n (List.mem_range.mp hn)

/-- Witness for C9: the all-`'a'` draw is a valid run of the generator
and yields a 16-character password over the documented pool. -/
theorem generated_password_can_evade_masking_witness :
    (generate_password fun _ => 'a').length = 16 ∧
    ∀ c ∈ (generate_password fun _ => 'a').data, c ∈ password_chars :=
  generated_password_can_evade_masking.1 (fun _ => 'a')
    (fun n _ => by show 'a' ∈ password_chars; decide)

lemma py_int_intCast (k : ℤ) : py_int ((k : ℚ)) = k := by
  unfold py_int
  split <;> simp

lemma floor_div_sixty (s : ℚ) : ⌊s / 60⌋ = ⌊s⌋ / 60 := by
  have hmod1 : 0 ≤ ⌊s⌋ % 60 := Int.emod_nonneg _ (by norm_num)
  have hmod2 : ⌊s⌋ % 60 < 60 := Int.emod_lt_of_pos _ (by norm_num)
  have hdiv : ⌊s⌋ % 60 + 60 * (⌊s⌋ / 60) = ⌊s⌋ := Int.emod_add_ediv _ _
  have hfl : ((⌊s⌋ : ℤ) : ℚ) ≤ s := Int.floor_le s
  have hfu : s < ((⌊s⌋ : ℤ) : ℚ) + 1 := Int.lt_floor_add_one s
  have hcast : ((⌊s⌋ % 60 : ℤ) : ℚ) + 60 * ((⌊s⌋ / 60 : ℤ) : ℚ) = ((⌊s⌋ : ℤ) : ℚ) := by
    exact_mod_cast congrArg (fun z : ℤ => (z : ℚ)) hdiv
  have hm1 : (0 : ℚ) ≤ ((⌊s⌋ % 60 : ℤ) : ℚ) := by exact_mod_cast hmod1
  have hm2 : ((⌊s⌋ % 60 : ℤ) : ℚ) < 60 := by exact_mod_cast hmod2
  rw [Int.floor_eq_iff]
  constructor
  · rw [le_div_iff (by norm_num : (0 : ℚ) < 60)]
    linarith
  · rw [div_lt_iff (by norm_num : (0 : ℚ) < 60)]
    have hm3 : ((⌊s⌋ % 60 : ℤ) : ℚ) ≤ 59 := by
      exact_mod_cast (show ⌊s⌋ % 60 ≤ 59 by omega)
    nlinarith [hfu, hcast, hm3]

lemma py_int_py_floordiv_sixty (s : ℚ) :
    py_int (py_floordiv s 60) = ⌊s / 60⌋ := by
  unfold py_floordiv
  exact py_int_intCast _

lemma py_int_py_mod_sixty (s : ℚ) : py_int (py_mod s 60) = ⌊s⌋ % 60 := by
  have hle : ((⌊s / 60⌋ : ℤ) : ℚ) ≤ s / 60 := Int.floor_le _
  have h0 : 0 ≤ py_mod s 60 := by
    unfold py_mod
    rw [le_div_iff (by norm_num : (0 : ℚ) < 60)] at hle
    linarith
  unfold py_int
  rw [if_pos h0]
  unfold py_mod
  have : s - 60 * ((⌊s / 60⌋ : ℤ) : ℚ) = s - ((60 * ⌊s / 60⌋ : ℤ) : ℚ) := by
    push_cast
    ring
  rw [this, Int.floor_sub_int, floor_div_sixty, Int.emod_def]

lemma nat_decimal_ne_nil (n : ℕ) : nat_decimal n ≠ [] := by
  rw [nat_decimal]
  split
  · simp
  · simp

lemma nat_decimal_lt10 {n : ℕ} (h : n < 10) :
    nat_decimal n = [digit_char n] := by
  rw [nat_decimal, dif_pos h]

lemma nat_decimal_length_two {n : ℕ} (h1 : 10 ≤ n) (h2 : n < 100) :
    (nat_decimal n).length = 2 := by
  rw [nat_decimal, dif_neg (by omega), List.length_append,
    nat_decimal_lt10 (show n / 10 < 10 by omega)]
  rfl

lemma nat_decimal_length_ge2 {n : ℕ} (h : 10 ≤ n) :
    2 ≤ (nat_decimal n).length := by
  rw [nat_decimal, dif_neg (by omega), List.length_append]
  have := List.length_pos.mpr (nat_decimal_ne_nil (n / 10))
  simp
  omega

lemma nat_decimal_length_ge3 {n : ℕ} (h : 100 ≤ n) :
    3 ≤ (nat_decimal n).length := by
  rw [nat_decimal, dif_neg (by omega), List.length_append]
  have := nat_decimal_length_ge2 (show 10 ≤ n / 10 by omega)
  simp
  omega

lemma digit_char_isDigit {d : ℕ} (h : d < 10) :
    (digit_char d).isDigit = true := by
  interval_cases d <;> decide

lemma nat_decimal_all_digits : ∀ n : ℕ, ∀ c ∈ nat_decimal n, c.isDigit = true := by
  intro n
  induction n using Nat.strong_induction_on with
  | _ n ih =>
    intro c hc
    rw [nat_decimal] at hc
    split at hc
    · rename_i h
      simp only [List.mem_singleton] at hc
      subst hc
      exact digit_char_isDigit h
    · rename_i h
      rw [List.mem_append] at hc
      rcases hc with hc | hc
      · exact ih (n / 10) (Nat.div_lt_self (by omega) (by omega)) c hc
      · simp only [List.mem_singleton] at hc
        subst hc
        exact digit_char_isDigit (Nat.mod_lt _ (by omega))

lemma pad02_spec {i : ℤ} (h0 : 0 ≤ i) (h : i < 100) :
    (pad02 i).length = 2 ∧ ∀ c ∈ pad02 i, c.isDigit = true := by
  unfold pad02 int_decimal
  rw [if_neg (not_lt.mpr h0)]
  by_cases h10 : i.toNat < 10
  · rw [nat_decimal_lt10 h10]
    refine ⟨rfl, ?_⟩
    intro c hc
    simp at hc
    rcases hc with rfl | rfl
    · decide
    · exact digit_char_isDigit h10
  · have h1 : 10 ≤ i.toNat := by omega
    have h2 : i.toNat < 100 := by omega
    rw [if_neg (by rw [nat_decimal_length_two h1 h2]; omega)]
    exact ⟨nat_decimal_length_two h1 h2, nat_decimal_all_digits _⟩

lemma pad02_length_ge3 {i : ℤ} (h : 100 ≤ i) : 3 ≤ (pad02 i).length := by
  unfold pad02 int_decimal
  rw [if_neg (by omega : ¬i < 0)]
  have h3 : 3 ≤ (nat_decimal i.toNat).length :=
    nat_decimal_length_ge3 (by omega)
  rw [if_neg (by omega)]
  exact h3

lemma is_mmss_chars_eq_false {l : List Char} (h : l.length ≠ 5) :
    is_mmss_chars l = false := by
  rcases l with _ | ⟨a, _ | ⟨b, _ | ⟨c, _ | ⟨d, _ | ⟨e, _ | ⟨f, rest⟩⟩⟩⟩⟩⟩
  · rfl
  · rfl
  · rfl
  · rfl
  · rfl
  · exact absurd (show ([a, b, c, d, e] : List Char).length = 5 from rfl) h
  · rfl

lemma int_decimal_ne_nil (i : ℤ) : int_decimal i ≠ [] := by
  unfold int_decimal
  split
  · simp
  · exact nat_decimal_ne_nil _

lemma pad02_length_ge2 (i : ℤ) : 2 ≤ (pad02 i).length := by
  show 2 ≤ (if (int_decimal i).length < 2 then '0' :: int_decimal i
    else int_decimal i).length
  split
  · rename_i h
    have := List.length_pos.mpr (int_decimal_ne_nil i)
    simp
    omega
  · rename_i h
    omega

/-- C10: for every non-negative rational number of seconds `s`,
`CourseExecutor._format_time` returns `⌊s/60⌋` zero-padded to at least
two digits, a colon, and `⌊s⌋ mod 60` zero-padded to exactly two
digits; and the result has the exact `MM:SS` shape (two digits, colon,
two digits) if and only if `s < 6000`. -/
theorem format_time_mmss_shape (s : ℚ) (hs : 0 ≤ s) :
    format_time s = String.mk (pad02 ⌊s / 60⌋ ++ ':' :: pad02 (⌊s⌋ % 60)) ∧
    2 ≤ (pad02 ⌊s / 60⌋).length ∧ (pad02 (⌊s⌋ % 60)).length = 2 ∧
    (is_mmss (format_time s) = true ↔ s < 6000) := by
  have heq : format_time s =
      String.mk (pad02 ⌊s / 60⌋ ++ ':' :: pad02 (⌊s⌋ % 60)) := by
    unfold format_time
    rw [py_int_py_floordiv_sixty, py_int_py_mod_sixty]
  have hr0 : 0 ≤ ⌊s⌋ % 60 := Int.emod_nonneg _ (by norm_num)
  have hr60 : ⌊s⌋ % 60 < 60 := Int.emod_lt_of_pos _ (by norm_num)
  obtain ⟨hslen, hsdig⟩ := pad02_spec hr0 (by omega)
  have hmins0 : 0 ≤ ⌊s / 60⌋ := Int.floor_nonneg.mpr (by positivity)
  refine ⟨heq, pad02_length_ge2 _, hslen, ?_⟩
  rw [heq]
  show is_mmss_chars (pad02 ⌊s / 60⌋ ++ ':' :: pad02 (⌊s⌋ % 60)) = true ↔
    s < 6000
  by_cases h6000 : s < 6000
  · have hm100 : ⌊s / 60⌋ < 100 := by
      rw [Int.floor_lt]
      push_cast
      rw [div_lt_iff (by norm_num : (0 : ℚ) < 60)]
      linarith
    obtain ⟨hmlen, hmdig⟩ := pad02_spec hmins0 hm100
    obtain ⟨a, b, hab⟩ := List.length_eq_two.mp hmlen
    obtain ⟨d, e, hde⟩ := List.length_eq_two.mp hslen
    have ha : a.isDigit = true := hmdig a (by rw [hab]; simp)
    have hb : b.isDigit = true := hmdig b (by rw [hab]; simp)
    have hd : d.isDigit = true := hsdig d (by rw [hde]; simp)
    have he : e.isDigit = true := hsdig e (by rw [hde]; simp)
    refine iff_of_true ?_ h6000
    rw [hab, hde]
    show is_mmss_chars [a, b, ':', d, e] = true
    simp [is_mmss_chars, ha, hb, hd, he]
  · have hm100 : 100 ≤ ⌊s / 60⌋ := by
      rw [Int.le_floor]
      push_cast
      rw [le_div_iff (by norm_num : (0 : ℚ) < 60)]
      linarith [not_lt.mp h6000]
    have hlen5 : (pad02 ⌊s / 60⌋ ++ ':' :: pad02 (⌊s⌋ % 60)).length ≠ 5 := by
      rw [List.length_append]
      have := pad02_length_ge3 hm100
      simp only [List.length_cons, hslen]
      omega
    refine iff_of_false ?_ h6000
    rw [is_mmss_chars_eq_false hlen5]
    simp

/-- Witness for C10: `_format_time` at 125 seconds, which is below the
6000-second threshold and therefore has the `MM:SS` shape. -/
theorem format_time_mmss_shape_witness :
    format_time 125 = String.mk (pad02 ⌊(125 : ℚ) / 60⌋ ++ ':' ::
      pad02 (⌊(125 : ℚ)⌋ % 60)) ∧
    2 ≤ (pad02 ⌊(125 : ℚ) / 60⌋).length ∧
    (pad02 (⌊(125 : ℚ)⌋ % 60)).length = 2 ∧
    (is_mmss (format_time 125) = true ↔ (125 : ℚ) < 6000) :=
  format_time_mmss_shape 125 (by norm_num)

lemma str_contains_refl (s : String) : str_contains s s :=
  List.infix_refl _

lemma str_contains_mono_left (s : String) {t sub : String}
    (h : str_contains t sub) : str_contains (s ++ t) sub := by
  unfold str_contains at h ⊢
  rw [String.data_append]
  exact h.trans (List.suffix_append _ _).isInfix

lemma str_contains_mono_right {s sub : String} (t : String)
    (h : str_contains s sub) : str_contains (s ++ t) sub := by
  unfold str_contains at h ⊢
  rw [String.data_append]
  exact h.trans (List.prefix_append _ _).isInfix

lemma str_contains_trans {w m sub : String} (h1 : str_contains w m)
    (h2 : str_contains m sub) : str_contains w sub :=
  List.IsInfix.trans h2 h1

lemma str_contains_concat_map_str {α : Type} (f : α → String) {x : α}
    {l : List α} (hx : x ∈ l) : str_contains (concat_map_str f l) (f x) := by
  induction l with
  | nil => cases hx
  | cons y ys ih =>
    rcases List.mem_cons.mp hx with rfl | hx
    · exact str_contains_mono_right _ (str_contains_refl _)
    · exact str_contains_mono_left _ (ih hx)

/-- C1: for every non-empty list of narration segments, the
`filter_complex` string built by `VideoComposer._build_overlay_filter`
contains, for the `i`-th segment (0-based, bound to ffmpeg input index
`i + 2`), its scale clause, an adelay of `int(start * 1000)`
milliseconds applied to both audio channels of input `i + 2`, and an
overlay clause enabled exactly on the window `[start, end]`, where
`start = segment.get('start_time', 0) + intro_duration` and
`end = start + segment.get('duration', 5)`. -/
theorem build_overlay_filter_contains_segment_clauses
    (fmt : ℚ → String) (segs : List Segment) (intro_duration : ℚ)
    (browser_has_audio : Bool) (hne : segs ≠ []) (i : ℕ)
    (h : i < segs.length) :
    str_contains (build_overlay_filter fmt segs intro_duration browser_has_audio)
      (scale_clause fmt i (segs[i].start_time.getD 0 + intro_duration)) ∧
    str_contains (build_overlay_filter fmt segs intro_duration browser_has_audio)
      (adelay_clause fmt i (segs[i].duration.getD 5)
        (py_int ((segs[i].start_time.getD 0 + intro_duration) * 1000))) ∧
    str_contains (build_overlay_filter fmt segs intro_duration browser_has_audio)
      (overlay_clause fmt i (segs[i].start_time.getD 0 + intro_duration)
        ((segs[i].start_time.getD 0 + intro_duration) +
          segs[i].duration.getD 5)) := by
  have hlen : i < segs.enum.length := by rw [List.enum_length]; exact h
  have hmem : (i, segs[i]) ∈ segs.enum := by
    have := List.getElem_mem hlen
    rwa [List.getElem_enum] at this
  have hblock := str_contains_concat_map_str
      (fun p : ℕ × Segment => segment_filters fmt intro_duration p.1 p.2) hmem
  have hunfold : build_overlay_filter fmt segs intro_duration browser_has_audio =
      base_filters browser_has_audio ++
        concat_map_str
          (fun p => segment_filters fmt intro_duration p.1 p.2) segs.enum ++
        "[tmp" ++ toString ((segs.length : ℤ) - 1) ++ "]format=yuv420p[outv];" ++
        "[basea]" ++ narration_audio_inputs segs.length ++
        "amix=inputs=" ++ toString (1 + segs.length) ++
        ":duration=longest[outa]" := rfl
  have hwhole : str_contains
      (build_overlay_filter fmt segs intro_duration browser_has_audio)
      (segment_filters fmt intro_duration i segs[i]) := by
    rw [hunfold]
    exact str_contains_mono_right _ (str_contains_mono_right _
      (str_contains_mono_right _ (str_contains_mono_right _
        (str_contains_mono_right _ (str_contains_mono_right _
          (str_contains_mono_right _ (str_contains_mono_right _
            (str_contains_mono_left _ hblock))))))))
  refine ⟨?_, ?_, ?_⟩
  · exact str_contains_trans hwhole (str_contains_mono_right _
      (str_contains_mono_right _ (str_contains_refl _)))
  · exact str_contains_trans hwhole (str_contains_mono_right _
      (str_contains_mono_left _ (str_contains_refl _)))
  · exact str_contains_trans hwhole
      (str_contains_mono_left _ (str_contains_refl _))

/-- Witness for C1: one narration segment with `start_time = 3` and
`duration = 4` under the hard-coded 12-second intro: its clauses appear
in the filter graph with `start = 15`, `end = 19` and an adelay of
`int(15 * 1000)` on both channels. -/
theorem build_overlay_filter_contains_segment_clauses_witness :
    str_contains
      (build_overlay_filter (fun q => toString q.num) [⟨some 3, some 4⟩] 12 true)
      (scale_clause (fun q => toString q.num) 0 ((3 : ℚ) + 12)) ∧
    str_contains
      (build_overlay_filter (fun q => toString q.num) [⟨some 3, some 4⟩] 12 true)
      (adelay_clause (fun q => toString q.num) 0 4
        (py_int (((3 : ℚ) + 12) * 1000))) ∧
    str_contains
      (build_overlay_filter (fun q => toString q.num) [⟨some 3, some 4⟩] 12 true)
      (overlay_clause (fun q => toString q.num) 0 ((3 : ℚ) + 12)
        (((3 : ℚ) + 12) + 4)) := by
  have h := build_overlay_filter_contains_segment_clauses
    (fun q => toString q.num) [⟨some 3, some 4⟩] 12 true (by simp) 0 (by simp)
  simpa using h

set_option maxRecDepth 4096 in
/-- C8: with an empty narration-segment list, `_compose_with_ffmpeg`
falls back to `_simple_concatenate` and never builds the overlay
filter; had `_build_overlay_filter` been applied to the empty list, its
output would read from the label `[tmp-1]` (`len - 1 = -1`), and that
single occurrence of `tmp-1` is the read in the `format` stage — no
filter in the string defines the label. -/
theorem empty_segments_fall_back_to_simple_concatenate
    (fmt : ℚ → String) (browser_has_audio : Bool) :
    compose_with_ffmpeg_plan fmt [] browser_has_audio = .simpleConcat ∧
    str_contains (build_overlay_filter fmt [] 12 browser_has_audio)
      "[tmp-1]format=yuv420p[outv]" ∧
    count_sub "[tmp-1]".data
      (build_overlay_filter fmt [] 12 browser_has_audio).data = 1 := by
  cases browser_has_audio with
  | true =>
    have he : build_overlay_filter fmt [] 12 true =
        "[0:v][1:v]concat=n=2:v=1[basev];[0:a][1:a]concat=n=2:v=0:a=1[basea];[tmp-1]format=yuv420p[outv];[basea]amix=inputs=1:duration=longest[outa]" :=
      rfl
    refine ⟨rfl, ?_, ?_⟩
    · rw [he]; decide
    · rw [he]; decide
  | false =>
    have he : build_overlay_filter fmt [] 12 false =
        "[0:v][1:v]concat=n=2:v=1[basev];[0:a]acopy[basea];[tmp-1]format=yuv420p[outv];[basea]amix=inputs=1:duration=longest[outa]" :=
      rfl
    refine ⟨rfl, ?_, ?_⟩
    · rw [he]; decide
    · rw [he]; decide
